import Mathlib

/-!
Verification of `pyxnat/core/downloadutils.py`.

Python strings are modelled as `List Char`; the filesystem as the list of
existing paths; the zip archive as its list of member names; Python's
raise/return outcomes as `Except`.  Every definition below is translated
from the source module: `make_constraints_list`, `default_zip_name`,
`unzip` and `download`.
-/

deriving instance DecidableEq for Except

namespace Pyxnat

/-- Python strings are modelled as lists of characters. -/
abbrev Str := List Char

/-- Embed a Lean string literal as a Python string value. -/
def str (s : String) : Str := s.data

/-- The characters removed by Python's `str.strip()` with no argument
    (ASCII whitespace). -/
def pySpace (c : Char) : Bool :=
  c = ' ' || c = '\t' || c = '\n' || c = '\r' || c = '\x0b' || c = '\x0c'

/-- Python `s.strip()`: remove leading and trailing whitespace. -/
def strip (s : Str) : Str := (s.dropWhile pySpace).rdropWhile pySpace

/-- Python `s.split(sep)` for a one-character separator: `"".split(sep)`
    is `[""]`, and n separators produce n+1 pieces. -/
def splitOn (sep : Char) : Str → List Str
  | [] => [[]]
  | c :: cs =>
    match splitOn sep cs with
    | [] => [[]]
    | p :: ps => if c = sep then [] :: p :: ps else (c :: p) :: ps

/-- Python `sep.join(pieces)` for a one-character separator. -/
def joinSep (sep : Char) : List Str → Str
  | [] => []
  | [x] => x
  | x :: y :: xs => x ++ sep :: joinSep sep (y :: xs)

/-- Helper for substring containment: does `hay` start with `needle`? -/
def strStartsWith : Str → Str → Bool
  | [], _ => true
  | _ :: _, [] => false
  | a :: as, b :: bs => a = b && strStartsWith as bs

/-- Python `needle in hay` substring containment. -/
def containsSub (needle : Str) : Str → Bool
  | [] => needle.isEmpty
  | c :: cs => strStartsWith needle (c :: cs) || containsSub needle cs

/-- Python list slice `l[0::2]`: every other element, starting at index 0. -/
def everyOther {α : Type} : List α → List α
  | [] => []
  | [a] => [a]
  | a :: _ :: rest => a :: everyOther rest

/-- `os.path.join` on two POSIX path segments. -/
def pathJoin (a b : Str) : Str :=
  if b.head? = some '/' then b
  else if a = [] ∨ a.getLast? = some '/' then a ++ b
  else a ++ '/' :: b

/-! ## Constraint parsing (`make_constraints_list`) -/

/-- The tokens collected by the loop in `make_constraints_list`: split on
    commas, strip each piece, keep the non-empty ones. -/
def cleanTokens (s : Str) : List Str :=
  ((splitOn ',' s).map strip).filter (fun c => c ≠ [])

/-- The literal token `"ALL"`. -/
def allTok : Str := str "ALL"

/-- The `ValueError` message raised by `make_constraints_list`. -/
def allMsg : Str :=
  str "The \"ALL\" scan type constraint cannot be used with any other constraint"

/-- `make_constraints_list` from `downloadutils.py`: split the raw string on
    commas, strip, drop empty pieces, de-duplicate (`list(set(...))`,
    modelled as `List.dedup`), and raise `ValueError` when `"ALL"` is
    combined with any other constraint. -/
def make_constraints_list (constraints_str : Str) : Except Str (List Str) :=
  let constraints_list := (cleanTokens constraints_str).dedup
  if constraints_list.length > 1 ∧ allTok ∈ constraints_list then
    Except.error allMsg
  else
    Except.ok constraints_list

/-- Does a `make_constraints_list` outcome raise `ValueError`? -/
def raisesValueError : Except Str (List Str) → Bool
  | Except.error _ => true
  | Except.ok _ => false

/-- `make_constraints_dict` from `downloadutils.py`: pairs the format with
    the parsed constraint list. -/
def make_constraints_dict (constraints_str format : Str) :
    Except Str (Str × List Str) :=
  (make_constraints_list constraints_str).map (fun l => (format, l))

/-! ## Archive naming (`default_zip_name`) -/

/-- The owning resource-collection object, as far as this module reads it:
    `_cbase` is its URI string and `getResult` is what `instance.get`
    returns (the availability query). -/
structure Instance where
  cbase : Str
  getResult : List Str
deriving DecidableEq, Repr

/-- The encoded wildcard marker `%2A`. -/
def wildcard : Str := str "%2A"

/-- `default_zip_name` from `downloadutils.py`.  Note that the source joins
    `_cbase.split('/')[1::2][1:]` (the category labels minus the first) and
    appends `instance._cbase.__class__.__name__`, which for a Python `str`
    value is the literal `"str"`; the unused `keys`/`uri_dict` locals are
    kept as discarded lets. -/
def default_zip_name (inst : Instance) (constraints : List Str) : Except Str Str :=
  if containsSub wildcard inst.cbase then
    Except.error ((str "URI contains wildcards :") ++ inst.cbase)
  else
    let parts := splitOn '/' inst.cbase
    let _keys := everyOther (parts.drop 2)
    let vals := (everyOther (parts.drop 1)).drop 1
    Except.ok (joinSep '_' vals ++ (str "_") ++ (str "str") ++ (str "_") ++
      joinSep '_' constraints)

/-! ## unzip -/

/-- Result of `unzip`: the Python tuple `(False, member)` or
    `(True, paths)`. -/
inductive UnzipResult
  | blocked (member : Str)
  | extracted (paths : List Str)
deriving DecidableEq, Repr

/-- The member at which the for-loop in `unzip` returns `(False, member)`:
    the first member of the archive failing the check, in archive order. -/
def firstFailing (check : Str → Bool) : List Str → Option Str
  | [] => none
  | m :: ms => if check m then firstFailing check ms else some m

/-- `unzip` from `downloadutils.py`: run the check over `namelist()` and
    return on the first failure, else `extractall` and return the joined
    paths.  The second component records the files written by
    `extractall` (none when the loop aborts). -/
def unzip (members : List Str) (dest_dir : Str) (check : Str → Str → Bool) :
    UnzipResult × List Str :=
  match firstFailing (fun m => check m dest_dir) members with
  | some m => (UnzipResult.blocked m, [])
  | none =>
    (UnzipResult.extracted (members.map (fun f => pathJoin dest_dir f)),
     members.map (fun f => pathJoin dest_dir f))

/-! ## download -/

/-- The Python exception classes raised by `download`. -/
inductive PyErr
  | exception (msg : Str)
  | environmentError (msg : Str)
  | lookupError (msg : Str)
  | typeError (msg : Str)
deriving DecidableEq, Repr

/-- Successful return values of `download`: `(True, paths)` or
    `(True, zip_location)`. -/
inductive DlRes
  | extracted (paths : List Str)
  | zipPath (p : Str)
deriving DecidableEq, Repr

/-- Side effects of one `download` call, in order:
    whether `instance.get` was called, whether `instance._intf._exec` (the
    remote fetch) was invoked, the files created (the zip first, then any
    extracted members), whether `zipfile.ZipFile` was opened, and whether
    `fzip.close()` ran. -/
structure Effects where
  availQueried : Bool
  fetchInvoked : Bool
  written : List Str
  handleOpened : Bool
  handleClosed : Bool
deriving DecidableEq, Repr

/-- No side effect at all. -/
def noEffects : Effects := ⟨false, false, [], false, false⟩

/-- Message of the `Exception` raised when `instance is None`. -/
def noInstanceMsg : Str :=
  str "This function should be called directly but from an instance of a class that supports bulk downloading, eg. \"Scans\""

/-- Message of the `Exception` raised when `dest_dir is None`. -/
def noDestMsg : Str := str "Destination directory is unspecified"

/-- Message of the `Exception` raised when `zip_name is None`. -/
def noZipNameMsg : Str := str "Zip file name not specified"

/-- Message of the `EnvironmentError` raised when the zip already exists. -/
def existsMsg (zip_location : Str) : Str :=
  (str "Unable to download to ") ++ zip_location ++
    (str " because this file already exists.")

/-- The `desc` field of the extraction check built by `download`. -/
def checkDesc : Str := str "File does not exist in the parent directory"

/-- Message of the `EnvironmentError` raised when a member fails the check. -/
def blockedMsg (zip_location member desc : Str) : Str :=
  (str "Unable to extract ") ++ zip_location ++ (str " because file ") ++
    member ++ (str " failed the following test: ") ++ desc

/-- Message of the `TypeError` raised by calling `unzip`'s result tuple. -/
def tupleCallMsg : Str := str "'tuple' object is not callable"

/-- `download` from `downloadutils.py`.  `fs` is the set of paths existing
    on disk before the call; `archive` is the member list of the zip that
    the remote fetch materializes at `zip_location`.

    The source binds
    `safeUnzip = lambda: unzip(fzip, dest_dir, check) if not overwrite else lambda: unzip(fzip, dest_dir)`;
    the lambda's body is the whole conditional expression, so when
    `overwrite` is false, `safeUnzip()` already evaluates
    `unzip(fzip, dest_dir, check)` to a tuple (with its side effects) and
    `safeUnzip()()` then calls that tuple, raising `TypeError`.  When
    `overwrite` is true, `safeUnzip()` yields the inner lambda and the
    second call runs `unzip` with its default always-true check. -/
def download (dest_dir zip_name : Option Str) (uri : Str)
    (inst? : Option Instance) (extract overwrite : Bool)
    (fs archive : List Str) : Except PyErr DlRes × Effects :=
  match inst? with
  | none => (Except.error (PyErr.exception noInstanceMsg), noEffects)
  | some inst =>
    match dest_dir with
    | none => (Except.error (PyErr.exception noDestMsg), noEffects)
    | some dd =>
      match zip_name with
      | none => (Except.error (PyErr.exception noZipNameMsg), noEffects)
      | some zn =>
        -- available = instance.get(instance): the value is never used
        let _available := inst.getResult
        let zip_location := pathJoin dd (zn ++ str ".zip")
        if overwrite = false ∧ zip_location ∈ fs then
          (Except.error (PyErr.environmentError (existsMsg zip_location)),
           ⟨true, false, [], false, false⟩)
        else
          -- cache.preset(zip_location); instance._intf._exec(uri): the
          -- transport writes the archive at zip_location
          let fs1 := zip_location :: fs
          -- fzip = zipfile.ZipFile(zip_location, 'r')
          if extract then
            -- check['run'] reads the filesystem as it is after the fetch
            let check : Str → Str → Bool :=
              fun f _d => !(decide (pathJoin dd f ∈ fs1))
            if overwrite = false then
              -- safeUnzip() evaluates unzip(fzip, dest_dir, check) eagerly
              -- (checks run; on success extractall runs), and the second
              -- call applies the resulting tuple: TypeError, fzip left open
              let r := unzip archive dd check
              (Except.error (PyErr.typeError tupleCallMsg),
               ⟨true, true, zip_location :: r.2, true, false⟩)
            else
              -- safeUnzip()() runs unzip(fzip, dest_dir) with the default
              -- always-true check
              let r := unzip archive dd (fun _ _ => true)
              match r.1 with
              | UnzipResult.blocked m =>
                -- fzip.close(); raise EnvironmentError(...)
                (Except.error
                   (PyErr.environmentError (blockedMsg zip_location m checkDesc)),
                 ⟨true, true, zip_location :: r.2, true, true⟩)
              | UnzipResult.extracted paths =>
                -- return (True, paths) without closing fzip
                (Except.ok (DlRes.extracted paths),
                 ⟨true, true, zip_location :: r.2, true, false⟩)
          else
            -- fzip.close(); return (True, zip_location)
            (Except.ok (DlRes.zipPath zip_location),
             ⟨true, true, [zip_location], true, true⟩)

/-- Does a `download` outcome raise a `LookupError`? -/
def isLookupError : Except PyErr DlRes → Bool
  | Except.error (PyErr.lookupError _) => true
  | _ => false

/-! ## Helper lemmas -/

theorem firstFailing_eq_none (c : Str → Bool) (l : List Str)
    (h : ∀ m ∈ l, c m = true) : firstFailing c l = none := by
  induction l with
  | nil => rfl
  | cons m ms ih =>
    have hm := h m (List.mem_cons_self m ms)
    simp only [firstFailing, hm, if_true]
    exact ih (fun x hx => h x (List.mem_cons_of_mem m hx))

theorem firstFailing_first (c : Str → Bool) (pre : List Str) (m : Str)
    (post : List Str) (hpre : ∀ x ∈ pre, c x = true) (hm : c m = false) :
    firstFailing c (pre ++ m :: post) = some m := by
  induction pre with
  | nil => simp [firstFailing, hm]
  | cons a as ih =>
    have ha := hpre a (List.mem_cons_self a as)
    simp only [List.cons_append, firstFailing, ha, if_true]
    exact ih (fun x hx => hpre x (List.mem_cons_of_mem a hx))

theorem unzip_true_check (members : List Str) (d : Str) :
    unzip members d (fun _ _ => true)
      = (UnzipResult.extracted (members.map (fun f => pathJoin d f)),
         members.map (fun f => pathJoin d f)) := by
  unfold unzip
  rw [firstFailing_eq_none _ _ (fun m _ => rfl)]

theorem splitOn_ne_nil (sep : Char) (s : Str) : splitOn sep s ≠ [] := by
  cases s with
  | nil => simp [splitOn]
  | cons c cs =>
    unfold splitOn
    cases h : splitOn sep cs with
    | nil => simp
    | cons p ps => by_cases hc : c = sep <;> simp [hc]

theorem splitOn_cons_eq (sep c : Char) (cs p : Str) (ps : List Str)
    (h : splitOn sep cs = p :: ps) :
    splitOn sep (c :: cs) = if c = sep then [] :: p :: ps else (c :: p) :: ps := by
  unfold splitOn
  rw [h]

theorem not_mem_of_mem_splitOn (sep : Char) (s : Str) (x : Str)
    (hx : x ∈ splitOn sep s) : sep ∉ x := by
  induction s generalizing x with
  | nil =>
    simp only [splitOn, List.mem_singleton] at hx
    simp [hx]
  | cons c cs ih =>
    cases h : splitOn sep cs with
    | nil => exact absurd h (splitOn_ne_nil sep cs)
    | cons p ps =>
      rw [splitOn_cons_eq sep c cs p ps h] at hx
      by_cases hc : c = sep
      · rw [if_pos hc] at hx
        rcases List.mem_cons.mp hx with hx | hx
        · simp [hx]
        · exact ih x (by rw [h]; exact hx)
      · rw [if_neg hc] at hx
        rcases List.mem_cons.mp hx with hx | hx
        · subst hx
          intro hm
          rcases List.mem_cons.mp hm with hm | hm
          · exact hc hm.symm
          · exact ih p (by rw [h]; exact List.mem_cons_self p ps) hm
        · exact ih x (by rw [h]; exact List.mem_cons_of_mem p hx)

theorem splitOn_sep_free (sep : Char) (x : Str) (h : sep ∉ x) :
    splitOn sep x = [x] := by
  induction x with
  | nil => rfl
  | cons c cs ih =>
    have hc : ¬(c = sep) := by
      intro e
      subst e
      exact h (List.mem_cons_self c cs)
    have h2 : sep ∉ cs := fun m => h (List.mem_cons_of_mem c m)
    rw [splitOn_cons_eq sep c cs cs [] (ih h2), if_neg hc]

theorem splitOn_append_sep (sep : Char) (x y : Str) (h : sep ∉ x) :
    splitOn sep (x ++ sep :: y) = x :: splitOn sep y := by
  induction x with
  | nil =>
    simp only [List.nil_append]
    cases hy : splitOn sep y with
    | nil => exact absurd hy (splitOn_ne_nil sep y)
    | cons p ps =>
      rw [splitOn_cons_eq sep sep y p ps hy, if_pos rfl]
  | cons c cs ih =>
    have hc : ¬(c = sep) := by
      intro e
      subst e
      exact h (List.mem_cons_self c cs)
    have h2 : sep ∉ cs := fun m => h (List.mem_cons_of_mem c m)
    simp only [List.cons_append]
    rw [splitOn_cons_eq sep c (cs ++ sep :: y) cs (splitOn sep y) (ih h2), if_neg hc]

theorem splitOn_joinSep (sep : Char) (L : List Str) (hL : L ≠ [])
    (h : ∀ x ∈ L, sep ∉ x) : splitOn sep (joinSep sep L) = L := by
  induction L with
  | nil => exact absurd rfl hL
  | cons x xs ih =>
    cases xs with
    | nil =>
      simp only [joinSep]
      exact splitOn_sep_free sep x (h x (List.mem_cons_self x []))
    | cons y ys =>
      have hx : sep ∉ x := h x (List.mem_cons_self x (y :: ys))
      simp only [joinSep]
      rw [splitOn_append_sep sep x (joinSep sep (y :: ys)) hx]
      rw [ih (by simp) (fun z hz => h z (List.mem_cons_of_mem x hz))]

theorem strip_sublist (s : Str) : List.Sublist (strip s) s :=
  ((List.rdropWhile_prefix pySpace (s.dropWhile pySpace)).sublist).trans
    ((List.dropWhile_suffix pySpace).sublist)

theorem dropWhile_head_false (p : Char → Bool) (s : Str) (a : Char) (as : Str)
    (h : s.dropWhile p = a :: as) : p a = false := by
  induction s with
  | nil => simp at h
  | cons c cs ih =>
    by_cases hc : p c
    · rw [List.dropWhile_cons_of_pos hc] at h
      exact ih h
    · rw [List.dropWhile_cons_of_neg hc] at h
      cases h
      simpa using hc

theorem strip_dropWhile_eq (s : Str) :
    (strip s).dropWhile pySpace = strip s := by
  cases h : strip s with
  | nil => rfl
  | cons a as =>
    have hpre : strip s <+: s.dropWhile pySpace := by
      unfold strip
      exact List.rdropWhile_prefix _ _
    rw [h] at hpre
    obtain ⟨u, hu⟩ := hpre
    have ha : pySpace a = false :=
      dropWhile_head_false pySpace s a (as ++ u) (by rw [← hu]; simp)
    simp [List.dropWhile_cons, ha]

theorem strip_idem (s : Str) : strip (strip s) = strip s := by
  show ((strip s).dropWhile pySpace).rdropWhile pySpace = strip s
  rw [strip_dropWhile_eq s]
  show ((s.dropWhile pySpace).rdropWhile pySpace).rdropWhile pySpace = strip s
  rw [List.rdropWhile_idempotent]
  rfl

theorem mem_cleanTokens (s x : Str) (hx : x ∈ cleanTokens s) :
    x ≠ [] ∧ strip x = x ∧ ',' ∉ x := by
  unfold cleanTokens at hx
  rw [List.mem_filter] at hx
  obtain ⟨hx1, hx2⟩ := hx
  rw [List.mem_map] at hx1
  obtain ⟨p, hp, rfl⟩ := hx1
  refine ⟨by simpa using hx2, strip_idem p, ?_⟩
  intro hmem
  exact not_mem_of_mem_splitOn ',' s p hp ((strip_sublist p).subset hmem)

theorem map_strip_self (D : List Str) (h : ∀ x ∈ D, strip x = x) :
    D.map strip = D := by
  induction D with
  | nil => rfl
  | cons a as ih =>
    simp only [List.map_cons]
    rw [h a (List.mem_cons_self a as), ih (fun x hx => h x (List.mem_cons_of_mem a hx))]

/-! ## Claims -/

/-- Claim C1 (code bug): on the docstring's own example
    (`_cbase = "/projects/p/subjects/s/experiments/e"`, constraints
    `["T1","T2"]`, downloading "Scans"), `default_zip_name` returns
    `"subjects_experiments_str_T1_T2"` — the category labels minus the
    first, joined with the type name of the URI string — and not the
    documented `"p_s_e_Scans_T1_T2"` built from the value tokens and the
    collection-kind label. -/
theorem C1_default_zip_name_divergence :
    default_zip_name ⟨str "/projects/p/subjects/s/experiments/e", []⟩
        [str "T1", str "T2"]
      = Except.ok (str "subjects_experiments_str_T1_T2")
    ∧ decide ((str "subjects_experiments_str_T1_T2")
        = str "p_s_e_Scans_T1_T2") = false := by
  decide

/-- Claim C2 (code bug): with `extract=True`, `overwrite=False` and the
    archive member "a" colliding with the existing file "d/a", `download`
    raises `TypeError` (the second call in `safeUnzip()()` applies the
    tuple that `unzip` returned), not the documented `EnvironmentError`
    naming the member and check description; the downloaded zip stays on
    disk and no other file is created. -/
theorem C2_collision_raises_type_error :
    download (some (str "d")) (some (str "z")) (str "u") (some ⟨[], []⟩)
        true false [str "d/a"] [str "a"]
      = (Except.error (PyErr.typeError tupleCallMsg),
         ⟨true, true, [str "d/z.zip"], true, false⟩) := by
  decide

/-- Claim C3 (code bug): with `extract=True`, `overwrite=False` and no
    colliding member, `download` extracts every member (here "d/a" is
    written) but then raises `TypeError` instead of returning the list of
    extracted paths; only the `overwrite=True` path returns them. -/
theorem C3_extract_raises_type_error :
    download (some (str "d")) (some (str "z")) (str "u") (some ⟨[], []⟩)
        true false [] [str "a"]
      = (Except.error (PyErr.typeError tupleCallMsg),
         ⟨true, true, [str "d/z.zip", str "d/a"], true, false⟩) := by
  decide

/-- Claim C4 counterexample: a successful extraction (`extract=True`,
    `overwrite=True`) returns `(True, paths)` with the archive handle
    opened but never closed, so the handle is not released on every exit
    path. -/
theorem C4_counterexample :
    download (some (str "d")) (some (str "z")) (str "u") (some ⟨[], []⟩)
        true true [] [str "a"]
      = (Except.ok (DlRes.extracted [str "d/a"]),
         ⟨true, true, [str "d/z.zip", str "d/a"], true, false⟩) := by
  decide

/-- Claim C4 (amended): whenever `download` opens the archive, the handle
    is closed on exit exactly when `extract` is false — the
    return-without-extraction path closes it, while both extraction exits
    (the successful `overwrite=True` return and the `TypeError` raised
    when `overwrite=False`) leave it open. -/
theorem C4_handle_closed_iff_no_extract (dd zn uri : Str) (inst : Instance)
    (extract overwrite : Bool) (fs archive : List Str)
    (hopen : (download (some dd) (some zn) uri (some inst) extract overwrite
        fs archive).2.handleOpened = true) :
    (download (some dd) (some zn) uri (some inst) extract overwrite
        fs archive).2.handleClosed = !extract := by
  simp only [download] at hopen ⊢
  by_cases h1 : overwrite = false ∧ pathJoin dd (zn ++ str ".zip") ∈ fs
  · rw [if_pos h1] at hopen
    simp at hopen
  · rw [if_neg h1] at hopen ⊢
    cases extract with
    | false => rfl
    | true =>
      by_cases h2 : overwrite = false
      · rw [if_pos h2]
        rfl
      · rw [if_neg h2, unzip_true_check archive dd]
        rfl

/-- Witness for C4: a run that opens the archive without extracting
    closes the handle. -/
theorem C4_witness :
    (download (some (str "d")) (some (str "z")) (str "u") (some ⟨[], []⟩)
        false false [] []).2.handleOpened = true
    ∧ (download (some (str "d")) (some (str "z")) (str "u") (some ⟨[], []⟩)
        false false [] []).2.handleClosed = !false :=
  ⟨by decide,
   C4_handle_closed_iff_no_extract (str "d") (str "z") (str "u") ⟨[], []⟩
     false false [] [] (by decide)⟩

/-- Claim C5: with `overwrite=False` and a file already present at
    `dest_dir/zip_name.zip`, `download` raises the `EnvironmentError`
    "Unable to download to (path) because this file already exists." — the
    spec's `DestinationExistsError`, naming the path — and the remote
    fetch `instance._intf._exec` is never invoked. -/
theorem C5_dest_exists_no_fetch (dd zn uri : Str) (inst : Instance)
    (extract : Bool) (fs archive : List Str)
    (hex : pathJoin dd (zn ++ str ".zip") ∈ fs) :
    download (some dd) (some zn) uri (some inst) extract false fs archive
      = (Except.error (PyErr.environmentError
           (existsMsg (pathJoin dd (zn ++ str ".zip")))),
         ⟨true, false, [], false, false⟩) := by
  simp only [download]
  rw [if_pos (And.intro trivial hex)]

/-- Witness for C5: with "d/z.zip" already on disk the call fails before
    fetching. -/
theorem C5_witness :
    pathJoin (str "d") (str "z" ++ str ".zip") ∈ [str "d/z.zip"]
    ∧ download (some (str "d")) (some (str "z")) (str "u") (some ⟨[], []⟩)
        false false [str "d/z.zip"] []
      = (Except.error (PyErr.environmentError
           (existsMsg (pathJoin (str "d") (str "z" ++ str ".zip")))),
         ⟨true, false, [], false, false⟩) :=
  ⟨by decide,
   C5_dest_exists_no_fetch (str "d") (str "z") (str "u") ⟨[], []⟩ false
     [str "d/z.zip"] [] (by decide)⟩

/-- Claim C6: `unzip` validates members in archive order before writing
    anything: if every member passes the check it extracts exactly
    `dest_dir/member` for each member, and whenever the member list splits
    as `pre ++ m :: post` with all of `pre` passing and `m` failing, it
    returns `(False, m)` — the first failing member — and writes no file
    at all (extraction is all-or-nothing). -/
theorem C6_unzip_all_or_nothing (members : List Str) (dest_dir : Str)
    (check : Str → Str → Bool) :
    ((∀ m ∈ members, check m dest_dir = true) →
        unzip members dest_dir check
          = (UnzipResult.extracted (members.map (fun f => pathJoin dest_dir f)),
             members.map (fun f => pathJoin dest_dir f)))
    ∧ (∀ pre m post, members = pre ++ m :: post →
        (∀ x ∈ pre, check x dest_dir = true) → check m dest_dir = false →
        unzip members dest_dir check = (UnzipResult.blocked m, [])) := by
  constructor
  · intro hall
    unfold unzip
    rw [firstFailing_eq_none _ _ hall]
  · intro pre m post hsplit hpre hm
    subst hsplit
    unfold unzip
    rw [firstFailing_first _ pre m post hpre hm]

/-- Witness for C6: an archive whose second member fails the check is
    blocked on that member with nothing written. -/
theorem C6_witness :
    unzip [str "a", str "b"] (str "d") (fun f _ => decide (f ≠ str "b"))
      = (UnzipResult.blocked (str "b"), []) :=
  (C6_unzip_all_or_nothing [str "a", str "b"] (str "d")
      (fun f _ => decide (f ≠ str "b"))).2
    [str "a"] (str "b") [] (by decide) (by decide) (by decide)

/-- Claim C7 counterexample: with `dest_dir = ""` (empty but not None) the
    precondition check passes — the source tests `dest_dir is None`, not
    non-emptiness — and the call runs to completion instead of failing
    with a `ConfigurationError`. -/
theorem C7_counterexample :
    download (some []) (some (str "z")) (str "u") (some ⟨[], []⟩)
        false false [] []
      = (Except.ok (DlRes.zipPath (str "z.zip")),
         ⟨true, true, [str "z.zip"], true, true⟩) := by
  decide

/-- Claim C7 (amended): `download` checks its preconditions first, before
    any I/O: it fails with the configuration `Exception`s when the owner
    reference is absent, when `dest_dir` is absent (None), or when
    `zip_name` is absent (None) — absence meaning None, empty strings
    being accepted — and no side effect occurs when a check fails. -/
theorem C7_preconditions (dd zn : Option Str) (uri : Str)
    (inst? : Option Instance) (extract overwrite : Bool)
    (fs archive : List Str) :
    (inst? = none →
      download dd zn uri inst? extract overwrite fs archive
        = (Except.error (PyErr.exception noInstanceMsg), noEffects))
    ∧ (inst? ≠ none → dd = none →
      download dd zn uri inst? extract overwrite fs archive
        = (Except.error (PyErr.exception noDestMsg), noEffects))
    ∧ (inst? ≠ none → dd ≠ none → zn = none →
      download dd zn uri inst? extract overwrite fs archive
        = (Except.error (PyErr.exception noZipNameMsg), noEffects)) := by
  refine ⟨?_, ?_, ?_⟩
  · intro h
    subst h
    rfl
  · intro h1 h2
    subst h2
    cases inst? with
    | none => exact absurd rfl h1
    | some i => rfl
  · intro h1 h2 h3
    subst h3
    cases inst? with
    | none => exact absurd rfl h1
    | some i =>
      cases dd with
      | none => exact absurd rfl h2
      | some d => rfl

/-- Witness for C7: calling with `zip_name` absent fails with the
    zip-name configuration error and no side effect. -/
theorem C7_witness :
    (some (str "d") : Option Str) ≠ none
    ∧ download (some (str "d")) none (str "u") (some ⟨[], []⟩) false false [] []
        = (Except.error (PyErr.exception noZipNameMsg), noEffects) :=
  ⟨by simp,
   (C7_preconditions (some (str "d")) none (str "u") (some ⟨[], []⟩)
      false false [] []).2.2 (by simp) (by simp) rfl⟩

/-- Claim C8: `make_constraints_list` raises `ValueError` exactly when the
    de-duplicated set of trimmed non-empty tokens has more than one
    element and contains the literal token "ALL"; "ALL,T1" fails, "ALL"
    yields ["ALL"], and "T1,T1,T2" yields a set of size 2. -/
theorem C8_all_must_be_alone (raw : Str) :
    (raisesValueError (make_constraints_list raw)
      = (decide ((cleanTokens raw).dedup.length > 1)
          && decide (allTok ∈ (cleanTokens raw).dedup)))
    ∧ make_constraints_list (str "ALL,T1") = Except.error allMsg
    ∧ make_constraints_list (str "ALL") = Except.ok [str "ALL"]
    ∧ (make_constraints_list (str "T1,T1,T2")).toOption.map List.length
        = some 2 := by
  refine ⟨?_, by decide, by decide, by decide⟩
  by_cases hc : (cleanTokens raw).dedup.length > 1
      ∧ allTok ∈ (cleanTokens raw).dedup
  · simp only [make_constraints_list]
    rw [if_pos hc]
    simp [raisesValueError, hc.1, hc.2]
  · simp only [make_constraints_list]
    rw [if_neg hc]
    by_cases hA : (cleanTokens raw).dedup.length > 1
    · have hB : ¬allTok ∈ (cleanTokens raw).dedup := fun hb => hc ⟨hA, hb⟩
      simp [raisesValueError, hA, hB]
    · simp [raisesValueError, hA]

/-- Claim C9: when `make_constraints_list` succeeds with list `L`, parsing
    the comma-join of `L` succeeds and returns `L` itself (so in
    particular the same set of tokens): the parser is idempotent. -/
theorem C9_parse_idempotent (raw : Str) (L : List Str)
    (h : make_constraints_list raw = Except.ok L) :
    make_constraints_list (joinSep ',' L) = Except.ok L := by
  simp only [make_constraints_list] at h
  by_cases hc : (cleanTokens raw).dedup.length > 1
      ∧ allTok ∈ (cleanTokens raw).dedup
  · rw [if_pos hc] at h
    exact Except.noConfusion h
  · rw [if_neg hc] at h
    injection h with hL
    subst hL
    by_cases hD : (cleanTokens raw).dedup = []
    · rw [hD]
      decide
    · have hmem : ∀ x ∈ (cleanTokens raw).dedup,
          x ≠ [] ∧ strip x = x ∧ ',' ∉ x :=
        fun x hx => mem_cleanTokens raw x (List.mem_dedup.mp hx)
      have hsplit : splitOn ',' (joinSep ',' ((cleanTokens raw).dedup))
          = (cleanTokens raw).dedup :=
        splitOn_joinSep ',' _ hD (fun x hx => (hmem x hx).2.2)
      have hclean : cleanTokens (joinSep ',' ((cleanTokens raw).dedup))
          = (cleanTokens raw).dedup := by
        show ((splitOn ',' (joinSep ','
            ((cleanTokens raw).dedup))).map strip).filter
            (fun c => c ≠ []) = (cleanTokens raw).dedup
        rw [hsplit, map_strip_self _ (fun x hx => (hmem x hx).2.1)]
        exact List.filter_eq_self.mpr
          (fun a ha => by simpa using (hmem a ha).1)
      simp only [make_constraints_list]
      rw [hclean, List.dedup_idem, if_neg hc]

/-- Witness for C9: "T1,T2" parses to ["T1","T2"], whose re-join parses to
    the same list. -/
theorem C9_witness :
    make_constraints_list (str "T1,T2") = Except.ok [str "T1", str "T2"]
    ∧ make_constraints_list (joinSep ',' [str "T1", str "T2"])
        = Except.ok [str "T1", str "T2"] :=
  ⟨by decide,
   C9_parse_idempotent (str "T1,T2") [str "T1", str "T2"] (by decide)⟩

/-- Claim C10: the availability query `instance.get` never affects the
    outcome of `download`: two runs differing only in the returned value
    are equal, and no run raises a `LookupError` (the empty-collection
    check is commented out in the source). -/
theorem C10_availability_noninterference (dd zn : Option Str) (uri cb : Str)
    (avail avail' : List Str) (extract overwrite : Bool)
    (fs archive : List Str) :
    download dd zn uri (some ⟨cb, avail⟩) extract overwrite fs archive
      = download dd zn uri (some ⟨cb, avail'⟩) extract overwrite fs archive
    ∧ isLookupError (download dd zn uri (some ⟨cb, avail⟩) extract overwrite
        fs archive).1 = false := by
  refine ⟨rfl, ?_⟩
  cases dd with
  | none => rfl
  | some d =>
    cases zn with
    | none => rfl
    | some z =>
      simp only [download]
      by_cases h1 : overwrite = false ∧ pathJoin d (z ++ str ".zip") ∈ fs
      · rw [if_pos h1]
        rfl
      · rw [if_neg h1]
        cases extract with
        | false => rfl
        | true =>
          by_cases h2 : overwrite = false
          · rw [if_pos h2]
            rfl
          · rw [if_neg h2, unzip_true_check archive d]
            rfl

end Pyxnat
